import Mathlib

/-!
Verification of the IATAScraper pipeline (src/iata-scraper/src/main.rs).

The program scrapes wiki-style airline-code tables from a fixed family of
pages, merges them into one normalized CSV dataset, then downloads one logo
image per extracted 2-character airline code with bounded concurrency.

This file gives a shallow embedding of the program's pure core and of its
effectful skeleton (HTTP responses, filesystem writes and CSV (re)reads are
modelled as explicit environment values), and proves the specification's
claims about it.  Rust `Result` is modelled as `Except String`, Rust
`Option` as `Option`, the `HashSet` of codes as `Finset String`.
Case mapping is modelled at the ASCII level, matching the Rust code's
`eq_ignore_ascii_case` / `is_ascii_alphanumeric` checks (the inputs the
validity filter accepts are ASCII-only by construction).
-/

namespace IATAScraper

/-! ## String helpers modelling the Rust std primitives used by main.rs

Lean's own `String.trim`, `String.toUpper` and `String.split` are defined
through `Substring` machinery that the kernel does not reduce, so the Rust
std functions are modelled directly on the character lists.  All models use
ASCII case mapping: the Rust code compares with `eq_ignore_ascii_case` and
filters with `is_ascii_alphanumeric`, so only ASCII case behaviour is ever
observable in the accepted values. -/

/-- ASCII lower-casing of a single character, as in Rust's
`char::to_ascii_lowercase`. -/
def asciiLower (c : Char) : Char :=
  if 'A' ≤ c ∧ c ≤ 'Z' then Char.ofNat (c.toNat + 32) else c

/-- ASCII upper-casing of a single character. -/
def asciiUpper (c : Char) : Char :=
  if 'a' ≤ c ∧ c ≤ 'z' then Char.ofNat (c.toNat - 32) else c

/-- Rust `str::eq_ignore_ascii_case`: equality after ASCII case folding. -/
def eq_ignore_ascii_case (a b : String) : Bool :=
  a.data.map asciiLower == b.data.map asciiLower

/-- Rust `str::trim`: strip whitespace from both ends. -/
def trim (s : String) : String :=
  ⟨((s.data.dropWhile Char.isWhitespace).reverse.dropWhile
      Char.isWhitespace).reverse⟩

/-- Rust `str::to_uppercase`, at the ASCII level (see the section note). -/
def to_uppercase (s : String) : String :=
  ⟨s.data.map asciiUpper⟩

/-- One character of Rust `str::split_whitespace`, processed right to left:
a whitespace character opens a new (possibly empty) run, any other character
extends the current run. -/
def splitWsStep (c : Char) (acc : List (List Char)) : List (List Char) :=
  if c.isWhitespace then [] :: acc
  else
    match acc with
    | [] => [[c]]
    | run :: runs => (c :: run) :: runs

/-- Rust `str::split_whitespace`: the maximal non-empty runs of
non-whitespace characters. -/
def split_whitespace (s : String) : List String :=
  ((s.data.foldr splitWsStep []).filter (fun r => r ≠ [])).map
    (fun r => ⟨r⟩)

/-- Model of `extract_text` (main.rs:110-113): join the cell's descendant text nodes
with single spaces, then collapse every whitespace run to a single space and
trim.  A cell's descendant text nodes are modelled as a `List String`. -/
def extract_text (nodes : List String) : String :=
  let raw := " ".intercalate nodes
  " ".intercalate (split_whitespace raw)

/-! ## HTML table model

The `scraper` crate's parsing is external to the program; the embedding
starts from its output: the list of `table.wikitable` elements in document
order, each a list of `tr` rows, each row a list of cells.  A cell records
whether it is a `th` or a `td` element and its descendant text nodes. -/

/-- A table cell: `isTh = true` for a `<th>` element, `false` for `<td>`. -/
structure Cell where
  isTh : Bool
  nodes : List String
deriving DecidableEq, Repr

/-- A `table.wikitable` element: its `tr` rows in document order. -/
structure Table where
  rows : List (List Cell)
deriving DecidableEq, Repr

/-- Texts of all cells of a row, `th` and `td` alike (the `"th, td"`
selector at main.rs:79,86). -/
def rowAllCells (r : List Cell) : List String :=
  r.map (fun c => extract_text c.nodes)

/-- Texts of only the `td` cells of a row (the `"td"` selector at
main.rs:80,95). -/
def rowDataCells (r : List Cell) : List String :=
  (r.filter (fun c => !c.isTh)).map (fun c => extract_text c.nodes)

/-- Model of `header_has_iata` (main.rs:106-108): some cell text, trimmed, equals
"IATA" up to ASCII case. -/
def header_has_iata (header : List String) : Bool :=
  header.any (fun h => eq_ignore_ascii_case (trim h) "IATA")

/-- The per-table step of the loop at main.rs:82-101: `none` when the table
has no rows or its first row lacks an IATA cell (the two `continue` paths),
otherwise the extraction result: first-row cell texts as header, and the
non-empty `td`-text rows of the remaining `tr`s as data. -/
def extractFromTable (t : Table) : Option (List String × List (List String)) :=
  match t.rows with
  | [] => none
  | hrow :: rest =>
    let header_cells := rowAllCells hrow
    if header_has_iata header_cells then
      some (header_cells, (rest.map rowDataCells).filter (fun r => r ≠ []))
    else
      none

/-- Whether the loop at main.rs:82-101 selects this table. -/
def qualifies (t : Table) : Bool :=
  match t.rows with
  | [] => false
  | hrow :: _ => header_has_iata (rowAllCells hrow)

/-- The loop over `doc.select(&table_sel)` (main.rs:82-103): return the
extraction of the first qualifying table, `none` if there is none. -/
def findIataTable : List Table → Option (List String × List (List String))
  | [] => none
  | t :: ts =>
    match extractFromTable t with
    | some r => some r
    | none => findIataTable ts

/-! ## HTTP fetch model (main.rs:66-73 and the reqwest status predicates) -/

/-- The outcome of `client.get(url).send().await`: a transport failure or a
response with a status code and a body. -/
inductive HttpResult where
  | transportErr (msg : String)
  | response (status : Nat) (body : String)
deriving DecidableEq, Repr

/-- A categorized fetch failure: transport error vs non-success status. -/
inductive FetchError where
  | transport (msg : String)
  | status (code : Nat)
deriving DecidableEq, Repr

/-- reqwest `StatusCode::is_success`: 2xx. -/
def is_success (s : Nat) : Bool := 200 ≤ s && s ≤ 299

/-- reqwest `StatusCode::is_client_error`: 4xx. -/
def is_client_error (s : Nat) : Bool := 400 ≤ s && s ≤ 499

/-- reqwest `StatusCode::is_server_error`: 5xx. -/
def is_server_error (s : Nat) : Bool := 500 ≤ s && s ≤ 599

/-- reqwest `Response::error_for_status` turns the response into an error
exactly when the status is a client or server error (4xx or 5xx). -/
def error_for_status (s : Nat) : Bool := is_client_error s || is_server_error s

/-- The fetch prefix of `fetch_iata_table` (main.rs:66-73): body text on a
status that survives `error_for_status`, a categorized failure otherwise. -/
def fetch_text (r : HttpResult) : Except FetchError String :=
  match r with
  | .transportErr m => .error (.transport m)
  | .response s body =>
    if error_for_status s then .error (.status s) else .ok body

/-- Model of `fetch_iata_table` (main.rs:65-104), with HTML parsing abstracted as a
function `parse` from body text to the document's wikitable list. -/
def fetch_iata_table (parse : String → List Table) (r : HttpResult) :
    Except FetchError (Option (List String × List (List String))) := do
  let body ← fetch_text r
  pure (findIataTable (parse body))

/-! ## scrape_all (main.rs:41-62) -/

/-- The loop body state of `scrape_all`: the optional unified header and the
accumulated rows, folded over each page's `fetch_iata_table` outcome.  An
`Ok(Some _)` page installs its header only when none is set yet and appends
its rows; `Ok(None)` and `Err` pages only log. -/
def scrape_go (header : Option (List String)) (rows_all : List (List String)) :
    List (Except FetchError (Option (List String × List (List String)))) →
    Option (List String) × List (List String)
  | [] => (header, rows_all)
  | res :: rest =>
    match res with
    | .ok (some (h, rows)) =>
      scrape_go (match header with | none => some h | some h0 => some h0)
        (rows_all ++ rows) rest
    | .ok none => scrape_go header rows_all rest
    | .error _ => scrape_go header rows_all rest

/-- Model of `scrape_all` (main.rs:41-62) over the per-page fetch outcomes: the
unified header and all accumulated rows, or the fatal error when no page
yielded a qualifying table. -/
def scrape_all (results : List (Except FetchError (Option (List String × List (List String))))) :
    Except String (List String × List (List String)) :=
  match scrape_go none [] results with
  | (none, _) => .error "no pages yielded an IATA table"
  | (some h, rows) => .ok (h, rows)

/-! ## Row normalization and the dataset file (main.rs:116-136) -/

/-- The per-row normalization of `write_csv_normalized` (main.rs:122-131):
as-is at the header width, truncated when longer, right-padded with empty
strings when shorter. -/
def normalize_row (hlen : Nat) (r : List String) : List String :=
  if r.length = hlen then r
  else if r.length > hlen then r.take hlen
  else r ++ List.replicate (hlen - r.length) ""

/-- The records `write_csv_normalized` (main.rs:116-136) writes to the
dataset file: the header first, then every row normalized to the header
width. -/
def write_csv_normalized (header : List String) (rows : List (List String)) :
    List (List String) :=
  header :: rows.map (normalize_row header.length)

/-! ## Code collection (main.rs:144-159) -/

/-- The marker-column lookup (main.rs:145-148): the position of the first
header cell whose trimmed text equals "IATA" up to ASCII case. -/
def find_iata_index (headers : List String) : Option Nat :=
  headers.findIdx? (fun h => eq_ignore_ascii_case (trim h) "IATA")

/-- The per-value normalization at main.rs:154: trim then upper-case. -/
def normalize_code (v : String) : String := to_uppercase (trim v)

/-- The validity check at main.rs:155: byte length exactly 2 and every
character ASCII alphanumeric. -/
def is_valid_code (c : String) : Bool :=
  c.utf8ByteSize == 2 && c.data.all (fun ch => ch.isAlphanum)

/-- The loop at main.rs:150-159 restricted to one record: read the
marker-column value if the record is wide enough, normalize it, insert it
into the set when valid. -/
def collect_step (iata_index : Nat) (s : Finset String) (rec : List String) :
    Finset String :=
  match rec.get? iata_index with
  | some val =>
    let code := normalize_code val
    if is_valid_code code then insert code s else s
  | none => s

/-- The code set built by the loop at main.rs:150-159 from the dataset's
data records. -/
def collect_codes (iata_index : Nat) (records : List (List String)) :
    Finset String :=
  records.foldl (collect_step iata_index) ∅

/-! ## Per-code download (main.rs:163-206) -/

/-- The filesystem visible to the downloader: contents by path. -/
def FsState := String → Option (List UInt8)

/-- Rust `fs::write`: (over)write one file. -/
def FsState.write (fs : FsState) (path : String) (content : List UInt8) :
    FsState :=
  fun p => if p = path then some content else fs p

/-- The empty filesystem. -/
def FsState.empty : FsState := fun _ => none

/-- The outcome of `client.get(url).send().await` for one logo, plus whether
the subsequent `fs::write` would succeed — the two effectful inputs of
`try_download`. -/
structure DlEnv where
  resp : HttpResult
  writeOk : Bool
deriving Repr

/-- The destination path built at main.rs:169: `out_dir/<code>.png`. -/
def logo_path (out_dir code : String) : String :=
  out_dir ++ "/" ++ code ++ ".png"

/-- Body bytes of a response, as `text` re-modelled at the byte level for
the logo download (the dataset fetch uses `fetch_text` instead). -/
def bodyBytes (body : String) : List UInt8 := body.toUTF8.toList

/-- Model of `try_download` (main.rs:192-206): 404/410 → `Ok(false)` (skip); any
other non-2xx → `Err("http <status>")`; 2xx → write the body bytes to `dst`
and `Ok(true)`.  A transport error or a failing `fs::write` surfaces as
`Err` through `?`. -/
def try_download (env : DlEnv) (dst : String) (fs : FsState) :
    Except String (Bool × FsState) :=
  match env.resp with
  | .transportErr m => .error m
  | .response status body =>
    if status == 404 || status == 410 then .ok (false, fs)
    else if !is_success status then .error ("http " ++ toString status)
    else if env.writeOk then .ok (true, fs.write dst (bodyBytes body))
    else .error "write failed"

/-- The three per-code outcomes of the spec's Download Outcome type. -/
inductive DlOutcome where
  | saved
  | skipped
  | failed (msg : String)
deriving DecidableEq, Repr

/-- Classification of a `try_download` result into the three outcomes. -/
def classify (r : Except String (Bool × FsState)) : DlOutcome :=
  match r with
  | .ok (true, _) => .saved
  | .ok (false, _) => .skipped
  | .error e => .failed e

/-- The async block at main.rs:166-185: every arm of the match on
`try_download` logs and returns `Ok(())`. -/
def logo_task (env : DlEnv) (dst : String) (fs : FsState) :
    Except String Unit :=
  match try_download env dst fs with
  | .ok (true, _) => .ok ()
  | .ok (false, _) => .ok ()
  | .error _ => .ok ()

/-! ## download_logos and the main pipeline (main.rs:16-35, 138-190)

The effectful boundaries — argument lookup, HTTP client construction,
directory creation, CSV file creation/write, CSV re-open and re-read, and
the per-code responses — are supplied as an environment.  The CSV re-read
returns the very records the program just wrote; the environment only
chooses whether each fallible step succeeds. -/

/-- Everything the outside world decides during one run. -/
structure MainEnv where
  /-- Rust `std::env::args().nth(1)`. -/
  arg : Option String
  /-- whether `Client::builder()...build()` succeeds. -/
  clientOk : Bool
  /-- whether `fs::create_dir_all(OUT_DIR)` in `main` succeeds. -/
  mkdirOk : Bool
  /-- per-page outcome of `fetch_iata_table`, in page order. -/
  docResults : List (Except FetchError (Option (List String × List (List String))))
  /-- whether `WriterBuilder...from_path(CSV_PATH)` succeeds. -/
  csvCreateOk : Bool
  /-- whether every `write_record` and the `flush` succeed. -/
  csvWriteOk : Bool
  /-- whether `ReaderBuilder...from_path(csv_path)` succeeds. -/
  csvReopenOk : Bool
  /-- whether `rdr.headers()` succeeds. -/
  headersReadOk : Bool
  /-- whether every `rec?` in the record loop succeeds. -/
  recordsReadOk : Bool
  /-- per-code response and write outcome for the logo downloads. -/
  dl : String → DlEnv

/-- Model of `write_csv_normalized` with its fallible file effects (main.rs:117,
120-133): the records written on success. -/
def write_csv_io (env : MainEnv) (header : List String)
    (rows : List (List String)) : Except String (List (List String)) :=
  if !env.csvCreateOk then .error "csv create failed"
  else if !env.csvWriteOk then .error "csv write failed"
  else .ok (write_csv_normalized header rows)

/-- Model of `download_logos` (main.rs:138-190) over the dataset records it re-reads
(header first).  The batch at main.rs:163-188 maps every code to
`logo_task`, whose result is always `Ok(())`, so once the prelude succeeds
the function returns `Ok(())`. -/
def download_logos (env : MainEnv) (written : List (List String)) :
    Except String Unit := do
  if !env.csvReopenOk then .error "csv reopen failed"
  else if !env.headersReadOk then .error "csv headers read failed"
  else do
    let headers := written.headD []
    let iata_index ←
      match find_iata_index headers with
      | some i => Except.ok i
      | none => Except.error "IATA column not found"
    if !env.recordsReadOk then .error "csv record read failed"
    else do
      let codes := collect_codes iata_index written.tail
      let _results := codes.toList.map (fun c =>
        logo_task (env.dl c) (logo_path "airline_bitmaps" c) FsState.empty)
      .ok ()

/-- Model of `main` (main.rs:16-35): the whole pipeline with every fallible step. -/
def run_main (env : MainEnv) : Except String Unit := do
  match env.arg with
  | none => Except.error "usage: iata-scraper <base_logo_url/>"
  | some _arg =>
    if !env.clientOk then .error "http client"
    else if !env.mkdirOk then .error "mkdir output"
    else do
      let (header, rows) ← scrape_all env.docResults
      let written ← write_csv_io env header rows
      download_logos env written

/-! ## Bounded-concurrency batch model (main.rs:188)

`stream::iter(tasks).buffer_unordered(12)` keeps at most 12 task futures
running at once: it pulls the next task from the stream whenever fewer than
12 are in flight, and tasks resolve in any order.  This is modelled as a
small-step transition relation on a batch state; the per-code outcome is
`classify` applied to the code's `try_download` result, exactly as the async
block at main.rs:166-185 observes it. -/

/-- The `buffer_unordered` argument at main.rs:188. -/
def concurrency_cap : Nat := 12

/-- A snapshot of the batch: tasks not yet pulled from the stream, tasks in
flight, and resolved tasks with their outcomes. -/
structure BatchState where
  pending : List String
  inFlight : List String
  done : List (String × DlOutcome)
deriving DecidableEq, Repr

/-- The batch before any task has been pulled. -/
def initBatch (codes : List String) : BatchState :=
  ⟨codes, [], []⟩

/-- One scheduler step of `buffer_unordered(12)`: pull the next task while
strictly fewer than 12 are in flight, or resolve any in-flight task to its
outcome. -/
inductive BatchStep (outcome : String → DlOutcome) :
    BatchState → BatchState → Prop
  | start (c : String) (rest fl : List String)
      (dn : List (String × DlOutcome)) :
      fl.length < concurrency_cap →
      BatchStep outcome ⟨c :: rest, fl, dn⟩ ⟨rest, fl ++ [c], dn⟩
  | finish (pd fl₁ fl₂ : List String) (c : String)
      (dn : List (String × DlOutcome)) :
      BatchStep outcome ⟨pd, fl₁ ++ c :: fl₂, dn⟩
        ⟨pd, fl₁ ++ fl₂, dn ++ [(c, outcome c)]⟩

/-- The states a batch run can pass through. -/
def BatchReachable (outcome : String → DlOutcome) (codes : List String)
    (s : BatchState) : Prop :=
  Relation.ReflTransGen (BatchStep outcome) (initBatch codes) s

/-- A state from which the scheduler has nothing left to do. -/
def BatchFinal (outcome : String → DlOutcome) (s : BatchState) : Prop :=
  ∀ s', ¬ BatchStep outcome s s'

/-! ## Supporting lemmas -/

theorem scrape_go_some_header (h0 : List String) (acc : List (List String))
    (l : List (Except FetchError (Option (List String × List (List String))))) :
    (scrape_go (some h0) acc l).1 = some h0 := by
  induction l generalizing acc with
  | nil => rfl
  | cons res rest ih =>
    cases res with
    | ok o =>
      cases o with
      | some p => obtain ⟨ph, pr⟩ := p; exact ih _
      | none => exact ih _
    | error e => exact ih _

theorem scrape_go_first_header (acc : List (List String))
    (results : List (Except FetchError (Option (List String × List (List String)))))
    (i : Nat) (h : List String) (r : List (List String))
    (hi : results.get? i = some (.ok (some (h, r))))
    (hfirst : ∀ j, j < i → ∀ x, results.get? j ≠ some (.ok (some x))) :
    (scrape_go none acc results).1 = some h := by
  induction results generalizing i acc with
  | nil => simp at hi
  | cons res rest ih =>
    cases i with
    | zero =>
      simp only [List.get?_cons_zero, Option.some.injEq] at hi
      subst hi
      exact scrape_go_some_header h _ rest
    | succ i =>
      simp only [List.get?_cons_succ] at hi
      have hres : ∀ x, res ≠ .ok (some x) := by
        intro x hx
        exact hfirst 0 (Nat.succ_pos i) x (by simp [hx])
      cases res with
      | ok o =>
        cases o with
        | some p => exact absurd rfl (hres p)
        | none =>
          exact ih _ i hi (fun j hj x hx =>
            hfirst (j + 1) (Nat.succ_lt_succ hj) x (by simpa using hx))
      | error e =>
        exact ih _ i hi (fun j hj x hx =>
          hfirst (j + 1) (Nat.succ_lt_succ hj) x (by simpa using hx))

/-! ## Claim theorems -/

/-- Claim C1: in every run where some page yields a qualifying table, the
header `scrape_all` returns (and which is written first to the dataset
file) is the header of the first page that yielded a qualifying table;
later pages' tables never replace it. -/
theorem scrape_all_header_stability
    (results : List (Except FetchError (Option (List String × List (List String)))))
    (i : Nat) (h : List String) (r : List (List String))
    (hi : results.get? i = some (.ok (some (h, r))))
    (hfirst : ∀ j, j < i → ∀ x, results.get? j ≠ some (.ok (some x))) :
    (∃ rows, scrape_all results = .ok (h, rows)) ∧
    ∀ rows, (write_csv_normalized h rows).head? = some h := by
  refine ⟨?_, fun rows => rfl⟩
  have hgo := scrape_go_first_header [] results i h r hi hfirst
  unfold scrape_all
  rcases heq : scrape_go none [] results with ⟨ho, rows⟩
  rw [heq] at hgo
  simp only at hgo
  subst hgo
  exact ⟨rows, rfl⟩

/-- Witness for C1: a run whose first page fails, second page yields a
table with header `["IATA", "x"]`, and third page yields a different
shape: the returned header is the second page's. -/
theorem scrape_all_header_stability_witness :
    (∃ rows, scrape_all
      [Except.error (.transport "timeout"),
       Except.ok (some ((["IATA", "x"] : List String), ([["AA", "a"]] : List (List String)))),
       Except.ok (some ((["IATA"] : List String), ([["BB"]] : List (List String))))]
      = .ok (["IATA", "x"], rows)) ∧
    ∀ rows, (write_csv_normalized ["IATA", "x"] rows).head? = some ["IATA", "x"] := by
  refine scrape_all_header_stability _ 1 ["IATA", "x"] [["AA", "a"]] rfl ?_
  intro j hj x hx
  interval_cases j
  simp at hx

theorem normalize_row_length (n : Nat) (r : List String) :
    (normalize_row n r).length = n := by
  unfold normalize_row
  split
  · omega
  · split
    · simp only [List.length_take]
      omega
    · simp only [List.length_append, List.length_replicate]
      omega

/-- Claim C2: for a header of length `n`, `normalize_row` produces a record
of exactly `n` cells — the row itself at length `n`, its first `n` cells in
original order when longer, the row padded with empty strings when shorter —
so every non-header record of the dataset file has exactly `n` cells. -/
theorem write_csv_normalized_row_width (header : List String)
    (rows : List (List String)) :
    (∀ r : List String,
      (normalize_row header.length r).length = header.length ∧
      (r.length = header.length → normalize_row header.length r = r) ∧
      (header.length < r.length →
        normalize_row header.length r = r.take header.length ∧
        ∀ i, (hi : i < header.length) →
          (normalize_row header.length r).get? i = r.get? i) ∧
      (r.length < header.length →
        normalize_row header.length r =
          r ++ List.replicate (header.length - r.length) "")) ∧
    ∀ rec ∈ (write_csv_normalized header rows).tail,
      rec.length = header.length := by
  constructor
  · intro r
    refine ⟨normalize_row_length _ _, ?_, ?_, ?_⟩
    · intro he
      unfold normalize_row
      rw [if_pos he]
    · intro hl
      have hne : r.length ≠ header.length := by omega
      have heq : normalize_row header.length r = r.take header.length := by
        unfold normalize_row
        rw [if_neg hne, if_pos hl]
      refine ⟨heq, fun i hi => ?_⟩
      rw [heq]
      simp [List.get?_eq_getElem?, List.getElem?_take_of_lt hi]
    · intro hs
      unfold normalize_row
      rw [if_neg (by omega), if_neg (by omega)]
  · intro rec hrec
    simp only [write_csv_normalized, List.tail_cons, List.mem_map] at hrec
    obtain ⟨r, _, hr⟩ := hrec
    rw [← hr]
    exact normalize_row_length _ _

/-- Witness for C2: a 3-column header against an exact, a longer and a
shorter row. -/
theorem write_csv_normalized_row_width_witness :
    normalize_row 3 ["a", "b", "c"] = ["a", "b", "c"] ∧
    normalize_row 3 ["a", "b", "c", "d", "e"] = ["a", "b", "c"] ∧
    normalize_row 3 ["a"] = ["a", "", ""] := by
  have h := write_csv_normalized_row_width ["h1", "h2", "h3"] []
  refine ⟨(h.1 ["a", "b", "c"]).2.1 (by decide),
    ?_, ?_⟩
  · have := ((h.1 ["a", "b", "c", "d", "e"]).2.2.1 (by decide)).1
    simpa using this
  · have := (h.1 ["a"]).2.2.2 (by decide)
    simpa using this

theorem utf8Size_eq_one_of_isAlphanum (c : Char) (h : c.isAlphanum = true) :
    c.utf8Size = 1 := by
  simp [Char.isAlphanum, Char.isAlpha, Char.isDigit, Char.isUpper,
    Char.isLower] at h
  have hv : c.val ≤ (127 : UInt32) := by
    have e57 : ((57 : UInt32)).toBitVec.toNat = 57 := rfl
    have e90 : ((90 : UInt32)).toBitVec.toNat = 90 := rfl
    have e122 : ((122 : UInt32)).toBitVec.toNat = 122 := rfl
    have e127 : ((127 : UInt32)).toBitVec.toNat = 127 := rfl
    rw [UInt32.le_def, BitVec.le_def]
    rcases h with (⟨h1, h2⟩ | ⟨h1, h2⟩) | ⟨h1, h2⟩ <;>
      (rw [UInt32.le_def, BitVec.le_def] at h2; omega)
  simp only [Char.utf8Size]
  rw [if_pos]
  exact hv

theorem utf8Len_eq_length_of_alnum (l : List Char)
    (h : l.all Char.isAlphanum = true) : String.utf8Len l = l.length := by
  induction l with
  | nil => rfl
  | cons c cs ih =>
    rw [List.all_cons, Bool.and_eq_true] at h
    rw [String.utf8Len_cons, utf8Size_eq_one_of_isAlphanum c h.1, ih h.2]
    simp

theorem is_valid_code_iff (c : String) :
    is_valid_code c = true ↔
      c.length = 2 ∧ c.data.all Char.isAlphanum = true := by
  unfold is_valid_code
  rw [Bool.and_eq_true, beq_iff_eq]
  obtain ⟨l⟩ := c
  rw [String.utf8ByteSize_mk]
  constructor
  · rintro ⟨h2, hall⟩
    rw [utf8Len_eq_length_of_alnum l hall] at h2
    exact ⟨h2, hall⟩
  · rintro ⟨h2, hall⟩
    rw [utf8Len_eq_length_of_alnum l hall]
    exact ⟨h2, hall⟩

theorem mem_collect_codes_aux (idx : Nat) (records : List (List String))
    (s : Finset String) (x : String) :
    x ∈ records.foldl (collect_step idx) s ↔
      x ∈ s ∨ ∃ rec ∈ records, ∃ val, rec.get? idx = some val ∧
        normalize_code val = x ∧ is_valid_code x = true := by
  induction records generalizing s with
  | nil => simp
  | cons rec rest ih =>
    rw [List.foldl_cons, ih]
    have hstep : x ∈ collect_step idx s rec ↔
        x ∈ s ∨ ∃ val, rec.get? idx = some val ∧
          normalize_code val = x ∧ is_valid_code x = true := by
      unfold collect_step
      cases hv : rec.get? idx with
      | none => simp
      | some val =>
        by_cases hval : is_valid_code (normalize_code val) = true
        · simp only [hval, if_true, Finset.mem_insert, Option.some.injEq]
          constructor
          · rintro (hx | hx)
            · exact Or.inr ⟨val, rfl, hx.symm, hx ▸ hval⟩
            · exact Or.inl hx
          · rintro (hx | ⟨val', hval', hx, hvalid⟩)
            · exact Or.inr hx
            · subst hval'
              exact Or.inl hx.symm
        · rw [Bool.not_eq_true] at hval
          simp only [hval, Bool.false_eq_true, if_false, Option.some.injEq]
          constructor
          · exact fun hx => Or.inl hx
          · rintro (hx | ⟨val', rfl, hx, hvalid⟩)
            · exact hx
            · rw [← hx] at hvalid
              rw [hvalid] at hval
              simp at hval
    rw [hstep]
    simp only [List.mem_cons]
    constructor
    · rintro ((hx | hx) | ⟨r, hr, hrest⟩)
      · exact Or.inl hx
      · exact Or.inr ⟨rec, Or.inl rfl, hx⟩
      · exact Or.inr ⟨r, Or.inr hr, hrest⟩
    · rintro (hx | ⟨r, (rfl | hr), hrest⟩)
      · exact Or.inl (Or.inl hx)
      · exact Or.inl (Or.inr hrest)
      · exact Or.inr ⟨r, hr, hrest⟩

/-- Claim C4: the collected code set contains exactly the marker-column
values that, trimmed and upper-cased, have exactly 2 characters, all ASCII
alphanumeric; duplicates collapse, rejects are skipped silently; on
`["aa", "AAA", "A1", "a!", "  bb  ", "BB"]` the set is exactly
`{"AA", "A1", "BB"}`. -/
theorem collect_codes_spec :
    (∀ (idx : Nat) (records : List (List String)) (x : String),
      x ∈ collect_codes idx records ↔
        ∃ rec ∈ records, ∃ val, rec.get? idx = some val ∧
          normalize_code val = x ∧ x.length = 2 ∧
          x.data.all Char.isAlphanum = true) ∧
    collect_codes 0 [["aa"], ["AAA"], ["A1"], ["a!"], ["  bb  "], ["BB"]] =
      {"AA", "A1", "BB"} := by
  constructor
  · intro idx records x
    rw [collect_codes, mem_collect_codes_aux]
    simp only [Finset.not_mem_empty, false_or, is_valid_code_iff]
  · decide

/-- Witness for C4: the value `"aa"` normalizes to the valid code `"AA"`
and lands in the set. -/
theorem collect_codes_spec_witness :
    "AA" ∈ collect_codes 0 [["aa"]] :=
  (collect_codes_spec.1 0 [["aa"]] "AA").mpr
    ⟨["aa"], by decide, "aa", rfl, by decide, by decide, by decide⟩

theorem extractFromTable_none_iff (t : Table) :
    extractFromTable t = none ↔ qualifies t = false := by
  obtain ⟨rows⟩ := t
  cases rows with
  | nil => simp [extractFromTable, qualifies]
  | cons hrow rest =>
    simp only [extractFromTable, qualifies]
    by_cases h : header_has_iata (rowAllCells hrow) = true
    · simp [h]
    · rw [Bool.not_eq_true] at h
      simp [h]

theorem extractFromTable_of_qualifies (t : Table) (h : qualifies t = true) :
    ∃ hrow rest, t.rows = hrow :: rest ∧
      extractFromTable t =
        some (rowAllCells hrow,
          (rest.map rowDataCells).filter (fun row => row ≠ [])) := by
  obtain ⟨rows⟩ := t
  cases rows with
  | nil => simp [qualifies] at h
  | cons hrow rest =>
    simp only [qualifies] at h
    exact ⟨hrow, rest, rfl, by simp [extractFromTable, h]⟩

theorem findIataTable_eq_none_iff (tables : List Table) :
    findIataTable tables = none ↔ ∀ t ∈ tables, qualifies t = false := by
  induction tables with
  | nil => simp [findIataTable]
  | cons t ts ih =>
    simp only [findIataTable, List.mem_cons]
    cases he : extractFromTable t with
    | some r =>
      have hq : qualifies t = true := by
        by_contra hq
        rw [Bool.not_eq_true, ← extractFromTable_none_iff] at hq
        rw [hq] at he
        cases he
      simp [hq]
    | none =>
      rw [extractFromTable_none_iff] at he
      simp [ih, he]

theorem findIataTable_first (tables : List Table) (i : Nat)
    (hi : i < tables.length) (hq : qualifies (tables.get ⟨i, hi⟩) = true)
    (hbefore : ∀ j (hj : j < tables.length), j < i →
      qualifies (tables.get ⟨j, hj⟩) = false) :
    findIataTable tables = extractFromTable (tables.get ⟨i, hi⟩) := by
  induction tables generalizing i with
  | nil => simp at hi
  | cons t ts ih =>
    cases i with
    | zero =>
      simp only [List.get] at hq ⊢
      obtain ⟨hrow, rest, hrows, hext⟩ := extractFromTable_of_qualifies t hq
      simp [findIataTable, hext]
    | succ i =>
      have ht : qualifies t = false :=
        hbefore 0 (Nat.succ_pos _) (Nat.succ_pos _)
      have hnone : extractFromTable t = none :=
        (extractFromTable_none_iff t).mpr ht
      simp only [List.length_cons, Nat.succ_lt_succ_iff] at hi
      simp only [findIataTable, hnone, List.get]
      exact ih i hi hq (fun j hj hji =>
        hbefore (j + 1) (Nat.succ_lt_succ hj) (Nat.succ_lt_succ hji))

/-- Claim C3: `fetch_iata_table` returns, without error, the extraction
result of the first qualifying wikitable (first-row cell texts as header,
the later rows' `td` cell texts as data with empty rows skipped), in
document order, ignoring later qualifying tables, and `none` when no table
qualifies. -/
theorem fetch_iata_table_spec (parse : String → List Table) (r : HttpResult)
    (body : String) (hok : fetch_text r = .ok body) :
    fetch_iata_table parse r = .ok (findIataTable (parse body)) ∧
    (∀ tables : List Table,
      (findIataTable tables = none ↔ ∀ t ∈ tables, qualifies t = false) ∧
      (∀ i (hi : i < tables.length),
        qualifies (tables.get ⟨i, hi⟩) = true →
        (∀ j (hj : j < tables.length), j < i →
          qualifies (tables.get ⟨j, hj⟩) = false) →
        ∃ hrow rest, (tables.get ⟨i, hi⟩).rows = hrow :: rest ∧
          findIataTable tables =
            some (rowAllCells hrow,
              (rest.map rowDataCells).filter (fun row => row ≠ [])))) := by
  constructor
  · simp [fetch_iata_table, hok]
  · intro tables
    refine ⟨findIataTable_eq_none_iff tables, ?_⟩
    intro i hi hq hbefore
    obtain ⟨hrow, rest, hrows, hext⟩ :=
      extractFromTable_of_qualifies _ hq
    refine ⟨hrow, rest, hrows, ?_⟩
    rw [findIataTable_first tables i hi hq hbefore, hext]

/-- Witness for C3: a document with a non-qualifying table followed by a
qualifying one; the second table's extraction is returned, with its
header-only rows and empty rows skipped. -/
theorem fetch_iata_table_spec_witness :
    fetch_iata_table
      (fun _ =>
        [⟨[[⟨true, ["Name"]⟩], [⟨false, ["x"]⟩]]⟩,
         ⟨[[⟨true, [" iata "]⟩, ⟨true, ["Airline"]⟩],
           [⟨false, ["AA"]⟩, ⟨false, ["Alpha", "Air"]⟩],
           [⟨true, ["only", "header", "cells"]⟩]]⟩])
      (.response 200 "page")
      = .ok (some (["iata", "Airline"], [["AA", "Alpha Air"]])) := by
  have h := fetch_iata_table_spec
    (fun _ =>
      [⟨[[⟨true, ["Name"]⟩], [⟨false, ["x"]⟩]]⟩,
       ⟨[[⟨true, [" iata "]⟩, ⟨true, ["Airline"]⟩],
         [⟨false, ["AA"]⟩, ⟨false, ["Alpha", "Air"]⟩],
         [⟨true, ["only", "header", "cells"]⟩]]⟩])
    (.response 200 "page") "page" rfl
  rw [h.1]
  exact congrArg Except.ok (by decide)

theorem error_for_status_iff (s : Nat) :
    error_for_status s = true ↔ 400 ≤ s ∧ s ≤ 599 := by
  simp only [error_for_status, is_client_error, is_server_error,
    Bool.or_eq_true, Bool.and_eq_true, decide_eq_true_eq]
  omega

/-- Claim C5: `try_download` classifies by status: 404/410 yields `Ok(false)`
(Skipped, not an error); any other non-2xx yields `Err("http <status>")`
(Failed with the status as detail); a 2xx reads the body and writes it
byte-for-byte to `<code>.png` in the destination directory, yielding
`Ok(true)` (Saved). -/
theorem try_download_classification (status : Nat) (body : String)
    (writeOk : Bool) (out_dir code : String) (fs : FsState) :
    ((status = 404 ∨ status = 410) →
      try_download ⟨.response status body, writeOk⟩ (logo_path out_dir code) fs
          = .ok (false, fs) ∧
      classify (try_download ⟨.response status body, writeOk⟩
        (logo_path out_dir code) fs) = .skipped) ∧
    (¬(status = 404 ∨ status = 410) → ¬(200 ≤ status ∧ status ≤ 299) →
      try_download ⟨.response status body, writeOk⟩ (logo_path out_dir code) fs
          = .error ("http " ++ toString status) ∧
      classify (try_download ⟨.response status body, writeOk⟩
        (logo_path out_dir code) fs) = .failed ("http " ++ toString status)) ∧
    ((200 ≤ status ∧ status ≤ 299) → writeOk = true →
      ∃ fs', try_download ⟨.response status body, writeOk⟩
            (logo_path out_dir code) fs = .ok (true, fs') ∧
        fs' (logo_path out_dir code) = some (bodyBytes body) ∧
        (∀ p, p ≠ logo_path out_dir code → fs' p = fs p) ∧
        logo_path out_dir code = out_dir ++ "/" ++ code ++ ".png" ∧
        classify (try_download ⟨.response status body, writeOk⟩
          (logo_path out_dir code) fs) = .saved) := by
  refine ⟨?_, ?_, ?_⟩
  · rintro (rfl | rfl) <;> exact ⟨rfl, rfl⟩
  · intro hne hns
    push_neg at hne
    have h1 : (status == 404 || status == 410) = false := by
      simp only [Bool.or_eq_false_iff, beq_eq_false_iff_ne]
      exact hne
    have h2 : is_success status = false := by
      simp only [is_success, Bool.and_eq_false_iff, decide_eq_false_iff_not]
      omega
    have ht : try_download ⟨.response status body, writeOk⟩
        (logo_path out_dir code) fs = .error ("http " ++ toString status) := by
      simp only [try_download, h1, Bool.false_eq_true, if_false, h2,
        Bool.not_false, if_true]
    exact ⟨ht, by rw [ht]; rfl⟩
  · rintro ⟨h200, h299⟩ hw
    subst hw
    have h1 : (status == 404 || status == 410) = false := by
      simp only [Bool.or_eq_false_iff, beq_eq_false_iff_ne]
      omega
    have h2 : is_success status = true := by
      simp only [is_success, Bool.and_eq_true, decide_eq_true_eq]
      omega
    have ht : try_download ⟨.response status body, true⟩
        (logo_path out_dir code) fs
          = .ok (true, fs.write (logo_path out_dir code) (bodyBytes body)) := by
      simp only [try_download, h1, Bool.false_eq_true, if_false, h2,
        Bool.not_true, if_true]
    refine ⟨_, ht, ?_, ?_, rfl, by rw [ht]; rfl⟩
    · unfold FsState.write
      rw [if_pos rfl]
    · intro p hp
      unfold FsState.write
      rw [if_neg hp]

/-- Witness for C5: a 404 response, a 500 response and a successful 200
response for code `"AA"`. -/
theorem try_download_classification_witness :
    try_download ⟨.response 404 "gone", true⟩
        (logo_path "airline_bitmaps" "AA") FsState.empty
      = .ok (false, FsState.empty) ∧
    try_download ⟨.response 500 "oops", true⟩
        (logo_path "airline_bitmaps" "AA") FsState.empty
      = .error ("http " ++ toString 500) ∧
    ∃ fs', try_download ⟨.response 200 "img", true⟩
        (logo_path "airline_bitmaps" "AA") FsState.empty = .ok (true, fs') ∧
      fs' (logo_path "airline_bitmaps" "AA") = some (bodyBytes "img") := by
  refine ⟨((try_download_classification 404 "gone" true "airline_bitmaps" "AA"
      FsState.empty).1 (Or.inl rfl)).1, ?_, ?_⟩
  · exact ((try_download_classification 500 "oops" true "airline_bitmaps" "AA"
      FsState.empty).2.1 (by omega) (by omega)).1
  · obtain ⟨fs', hdl, hread, -⟩ :=
      (try_download_classification 200 "img" true "airline_bitmaps" "AA"
        FsState.empty).2.2 (by omega) rfl
    exact ⟨fs', hdl, hread⟩

/-- Claim C6: every arm of the per-code task maps its outcome — Saved,
Skipped or Failed — to `Ok(())`, so once all download tasks have been
dispatched and resolved the batch returns success; no individual outcome
aborts it. -/
theorem download_logos_batch_total :
    (∀ (env : DlEnv) (dst : String) (fs : FsState),
      logo_task env dst fs = .ok ()) ∧
    (∀ (env : MainEnv) (written : List (List String)),
      env.csvReopenOk = true → env.headersReadOk = true →
      env.recordsReadOk = true →
      (find_iata_index (written.headD [])).isSome = true →
      download_logos env written = .ok ()) := by
  constructor
  · intro env dst fs
    cases h : try_download env dst fs with
    | error e => simp [logo_task, h]
    | ok p =>
      obtain ⟨b, fs'⟩ := p
      cases b <;> simp [logo_task, h]
  · intro env written h1 h2 h3 h4
    rw [Option.isSome_iff_exists] at h4
    obtain ⟨i, hi⟩ := h4
    rw [List.headD_eq_head?] at hi
    simp [download_logos, h1, h2, h3, hi, Except.bind]
    rfl

/-- Witness for C6: a batch whose only code gets a failing transport
response still returns success. -/
theorem download_logos_batch_total_witness :
    logo_task ⟨.transportErr "connection reset", true⟩
        (logo_path "airline_bitmaps" "AA") FsState.empty = .ok () ∧
    download_logos
      { arg := some "https://cdn.example.com/logos/", clientOk := true,
        mkdirOk := true, docResults := [], csvCreateOk := true,
        csvWriteOk := true, csvReopenOk := true, headersReadOk := true,
        recordsReadOk := true,
        dl := fun _ => ⟨.transportErr "connection reset", true⟩ }
      [["IATA"], ["AA"]] = .ok () := by
  constructor
  · exact download_logos_batch_total.1 _ _ _
  · exact download_logos_batch_total.2 _ [["IATA"], ["AA"]] rfl rfl rfl
      (by decide)

/-- Counterexample to C7 as stated: a 304 response is outside 2xx, yet the
fetch returns the body rather than signalling a failure, because
`error_for_status` only rejects 4xx and 5xx. -/
theorem fetch_text_counterexample_304 :
    fetch_text (.response 304 "body") = .ok "body" ∧ is_success 304 = false :=
  ⟨rfl, rfl⟩

/-- Claim C7 (amended): the fetcher returns the body as text exactly when
there is no transport error and the status is outside 400–599 (hence on
every 2xx), and signals a categorized failure — transport error vs
non-success HTTP status — for transport failures and 4xx/5xx statuses. -/
theorem fetch_text_spec (r : HttpResult) :
    (∀ status body, r = .response status body →
      (fetch_text r = .ok body ↔ ¬(400 ≤ status ∧ status ≤ 599))) ∧
    (∀ status body, r = .response status body → 400 ≤ status → status ≤ 599 →
      fetch_text r = .error (.status status)) ∧
    (∀ m, r = .transportErr m → fetch_text r = .error (.transport m)) ∧
    (∀ status body, r = .response status body → 200 ≤ status → status ≤ 299 →
      fetch_text r = .ok body) := by
  refine ⟨?_, ?_, ?_, ?_⟩
  · rintro status body rfl
    by_cases h : error_for_status status = true
    · rw [fetch_text, if_pos h]
      rw [error_for_status_iff] at h
      simp [h]
    · rw [fetch_text, if_neg h]
      rw [error_for_status_iff] at h
      simp [h]
  · rintro status body rfl h4 h5
    rw [fetch_text, if_pos ((error_for_status_iff status).mpr ⟨h4, h5⟩)]
  · rintro m rfl
    rfl
  · rintro status body rfl h2 h2'
    have h : ¬ error_for_status status = true := fun hc =>
      absurd ((error_for_status_iff status).mp hc) (by omega)
    rw [fetch_text, if_neg h]

/-- Witness for C7 (amended): a 200 response yields its body, a 404 a
status failure, a transport error a transport failure. -/
theorem fetch_text_spec_witness :
    fetch_text (.response 200 "page") = .ok "page" ∧
    fetch_text (.response 404 "page") = .error (.status 404) ∧
    fetch_text (.transportErr "dns") = .error (.transport "dns") :=
  ⟨(fetch_text_spec (.response 200 "page")).2.2.2 200 "page" rfl
      (by omega) (by omega),
   (fetch_text_spec (.response 404 "page")).2.1 404 "page" rfl
      (by omega) (by omega),
   (fetch_text_spec (.transportErr "dns")).2.2.1 "dns" rfl⟩

/-- Claim C10: when the HTTP fetch for a code succeeds but the local file
write fails, `try_download` surfaces an error, the outcome classifies as
Failed, the per-code task still returns `Ok(())`, and the batch completes
successfully — a filesystem error for one code never aborts the run. -/
theorem write_failure_isolated (status : Nat) (body out_dir code : String)
    (fs : FsState) (h200 : 200 ≤ status) (h299 : status ≤ 299) :
    try_download ⟨.response status body, false⟩ (logo_path out_dir code) fs
      = .error "write failed" ∧
    classify (try_download ⟨.response status body, false⟩
      (logo_path out_dir code) fs) = .failed "write failed" ∧
    logo_task ⟨.response status body, false⟩ (logo_path out_dir code) fs
      = .ok () ∧
    (∀ (env : MainEnv) (written : List (List String)),
      env.csvReopenOk = true → env.headersReadOk = true →
      env.recordsReadOk = true →
      (find_iata_index (written.headD [])).isSome = true →
      download_logos env written = .ok ()) := by
  have h1 : (status == 404 || status == 410) = false := by
    simp only [Bool.or_eq_false_iff, beq_eq_false_iff_ne]
    omega
  have h2 : is_success status = true := by
    simp only [is_success, Bool.and_eq_true, decide_eq_true_eq]
    omega
  have ht : try_download ⟨.response status body, false⟩
      (logo_path out_dir code) fs = .error "write failed" := by
    simp only [try_download, h1, Bool.false_eq_true, if_false, h2,
      Bool.not_true, Bool.false_eq_true, if_false]
  refine ⟨ht, by rw [ht]; rfl, by simp [logo_task, ht], ?_⟩
  intro env written hr hh hrec hidx
  rw [Option.isSome_iff_exists] at hidx
  obtain ⟨i, hi⟩ := hidx
  rw [List.headD_eq_head?] at hi
  simp [download_logos, hr, hh, hrec, hi, Except.bind]
  rfl

/-- Witness for C10: a 200 response with a failing write for code `"AA"`. -/
theorem write_failure_isolated_witness :
    try_download ⟨.response 200 "img", false⟩
        (logo_path "airline_bitmaps" "AA") FsState.empty
      = .error "write failed" ∧
    logo_task ⟨.response 200 "img", false⟩
        (logo_path "airline_bitmaps" "AA") FsState.empty = .ok () := by
  obtain ⟨hdl, -, htask, -⟩ :=
    write_failure_isolated 200 "img" "airline_bitmaps" "AA" FsState.empty
      (by omega) (by omega)
  exact ⟨hdl, htask⟩

theorem except_bind_ok {ε α β : Type} (a : α) (f : α → Except ε β) :
    (Except.ok a : Except ε α) >>= f = f a := rfl

theorem except_bind_error {ε α β : Type} (e : ε) (f : α → Except ε β) :
    (Except.error e : Except ε α) >>= f = Except.error e := rfl

/-- Counterexample to C8 as stated: a run whose only failure is the
output-directory creation (`fs::create_dir_all(OUT_DIR)` at main.rs:23)
exits with failure, although the argument is present, the client builds,
the documents yield a qualifying table, the output file is creatable and
writable and the marker column is present — so the claim's list of exit
causes is incomplete. -/
theorem run_main_unlisted_fatal_counterexample :
    run_main
      { arg := some "https://cdn.example.com/logos/", clientOk := true,
        mkdirOk := false,
        docResults := [Except.ok (some (["IATA"], [["AA"]]))],
        csvCreateOk := true, csvWriteOk := true, csvReopenOk := true,
        headersReadOk := true, recordsReadOk := true,
        dl := fun _ => ⟨.response 200 "img", true⟩ }
      = .error "mkdir output" ∧
    (some "https://cdn.example.com/logos/" : Option String) ≠ none ∧
    scrape_all [Except.ok (some (["IATA"], [["AA"]]))]
      = .ok (["IATA"], [["AA"]]) ∧
    find_iata_index ["IATA"] = some 0 := by
  refine ⟨rfl, by simp, rfl, by decide⟩

/-- Claim C8 (amended): the process exits with failure exactly when one of
the fatal setup conditions holds — missing argument, HTTP client
construction failure, output-directory creation failure, dataset file
creation or write failure, dataset re-open / header-read / record-read
failure, zero documents yielding a qualifying table, or absent marker
column — and the per-code download outcomes never influence the exit
status. -/
theorem run_main_fatal_spec (env : MainEnv) :
    (run_main env = .ok () ↔
      (env.arg ≠ none ∧ env.clientOk = true ∧ env.mkdirOk = true ∧
       env.csvCreateOk = true ∧ env.csvWriteOk = true ∧
       env.csvReopenOk = true ∧ env.headersReadOk = true ∧
       env.recordsReadOk = true ∧
       ∃ h rows, scrape_all env.docResults = .ok (h, rows) ∧
         (find_iata_index h).isSome = true)) ∧
    ∀ d : String → DlEnv, run_main { env with dl := d } = run_main env := by
  constructor
  · obtain ⟨arg, clientOk, mkdirOk, docResults, cco, cwo, cro, hro, rro, dl⟩ :=
      env
    cases arg with
    | none => simp [run_main]
    | some a =>
      cases clientOk with
      | false => simp [run_main]
      | true =>
        cases mkdirOk with
        | false => simp [run_main]
        | true =>
          cases hscrape : scrape_all docResults with
          | error e => simp [run_main, hscrape, except_bind_ok, except_bind_error]
          | ok p =>
            obtain ⟨h, rows⟩ := p
            cases cco with
            | false => simp [run_main, hscrape, except_bind_ok, except_bind_error, write_csv_io]
            | true =>
              cases cwo with
              | false => simp [run_main, hscrape, except_bind_ok, except_bind_error, write_csv_io]
              | true =>
                cases cro with
                | false =>
                  simp [run_main, hscrape, except_bind_ok, except_bind_error,
                    write_csv_io, download_logos]
                | true =>
                  cases hro with
                  | false =>
                    simp [run_main, hscrape, except_bind_ok, except_bind_error,
                      write_csv_io, download_logos]
                  | true =>
                    cases hidx : find_iata_index h with
                    | none =>
                      simp [run_main, hscrape, except_bind_ok, except_bind_error,
                        write_csv_io, download_logos, write_csv_normalized,
                        hidx]
                    | some i =>
                      cases rro with
                      | false =>
                        simp [run_main, hscrape, except_bind_ok, except_bind_error,
                          write_csv_io, download_logos, write_csv_normalized,
                          hidx]
                      | true =>
                        simp [run_main, hscrape, except_bind_ok, except_bind_error,
                          write_csv_io, download_logos, write_csv_normalized,
                          hidx]
  · intro d
    rfl

/-- Witness for C8 (amended): an environment without fatal conditions runs
to completion although one document fetch fails and every per-code
download fails. -/
theorem run_main_fatal_spec_witness :
    run_main
      { arg := some "https://cdn.example.com/logos/", clientOk := true,
        mkdirOk := true,
        docResults := [Except.error (.transport "timeout"),
          Except.ok (some (["IATA"], [["AA"], ["ZZZ", "x"]]))],
        csvCreateOk := true, csvWriteOk := true, csvReopenOk := true,
        headersReadOk := true, recordsReadOk := true,
        dl := fun _ => ⟨.transportErr "reset", false⟩ } = .ok () := by
  refine (run_main_fatal_spec _).1.mpr ?_
  exact ⟨by simp, rfl, rfl, rfl, rfl, rfl, rfl, rfl,
    ["IATA"], [["AA"], ["ZZZ", "x"]], rfl, by decide⟩

/-- The invariant maintained by every `buffer_unordered` schedule: the cap
on in-flight tasks, conservation of the work items, and outcomes recorded
exactly as resolved. -/
def BatchInv (outcome : String → DlOutcome) (codes : List String)
    (s : BatchState) : Prop :=
  s.inFlight.length ≤ concurrency_cap ∧
  List.Perm (s.pending ++ s.inFlight ++ s.done.map Prod.fst) codes ∧
  ∀ p ∈ s.done, p.2 = outcome p.1

theorem batchInv_init (outcome : String → DlOutcome) (codes : List String) :
    BatchInv outcome codes (initBatch codes) := by
  refine ⟨by simp [initBatch, concurrency_cap], ?_, by simp [initBatch]⟩
  simp [initBatch]

theorem batchInv_step {outcome : String → DlOutcome} {codes : List String}
    {s s' : BatchState} (hs : BatchInv outcome codes s)
    (st : BatchStep outcome s s') : BatchInv outcome codes s' := by
  obtain ⟨h1, h2, h3⟩ := hs
  cases st with
  | start c rest fl dn hlt =>
    refine ⟨?_, ?_, by simpa using h3⟩
    · simpa using hlt
    · refine List.Perm.trans ?_ h2
      rw [← Multiset.coe_eq_coe]
      simp only [← Multiset.coe_add, ← Multiset.cons_coe,
        ← Multiset.singleton_add]
      abel
  | finish pd fl₁ fl₂ c dn =>
    refine ⟨?_, ?_, ?_⟩
    · simp only [List.length_append] at h1 ⊢
      simp only [List.length_cons] at h1
      omega
    · refine List.Perm.trans ?_ h2
      rw [← Multiset.coe_eq_coe]
      simp only [List.map_append, List.map_cons, List.map_nil,
        ← Multiset.coe_add, ← Multiset.cons_coe, ← Multiset.singleton_add]
      abel
    · intro p hp
      rw [List.mem_append] at hp
      rcases hp with hp | hp
      · exact h3 p hp
      · simp only [List.mem_singleton] at hp
        subst hp
        rfl

theorem batchInv_reachable {outcome : String → DlOutcome}
    {codes : List String} {s : BatchState}
    (h : BatchReachable outcome codes s) : BatchInv outcome codes s := by
  induction h with
  | refl => exact batchInv_init outcome codes
  | tail hsteps hstep ih => exact batchInv_step ih hstep

theorem batchFinal_drained {outcome : String → DlOutcome} {s : BatchState}
    (h : BatchFinal outcome s) : s.pending = [] ∧ s.inFlight = [] := by
  obtain ⟨pd, fl, dn⟩ := s
  cases fl with
  | cons x xs => exact absurd (BatchStep.finish pd [] xs x dn) (h _)
  | nil =>
    cases pd with
    | nil => exact ⟨rfl, rfl⟩
    | cons c rest =>
      exact absurd
        (BatchStep.start c rest [] dn (by simp [concurrency_cap])) (h _)

theorem batchStep_not_drained {outcome : String → DlOutcome}
    {s s' : BatchState} (h : BatchStep outcome s s')
    (hfl : s.inFlight = []) (hpd : s.pending = []) : False := by
  cases h with
  | start c rest fl dn hlt => simp at hpd
  | finish pd fl₁ fl₂ c dn => simp at hfl

/-- Claim C9: with the per-code outcome fixed by `try_download` on the
code's response, and the stream enumerating the deduplicated code set in
any order, every state a `buffer_unordered(12)` schedule can reach has at
most 12 tasks in flight, and any state where the scheduler is done has
drained the stream and resolved every code of the set exactly once, each
to one of the three outcomes Saved, Skipped or Failed. -/
theorem buffer_unordered_bounded (dl : String → DlEnv) (iata_index : Nat)
    (records : List (List String)) (out_dir : String) (codes : List String)
    (s : BatchState)
    (hnd : codes.Nodup)
    (hmem : ∀ c ∈ codes, c ∈ collect_codes iata_index records)
    (hmem' : ∀ c ∈ collect_codes iata_index records, c ∈ codes)
    (hreach : BatchReachable
      (fun c => classify (try_download (dl c) (logo_path out_dir c)
        FsState.empty))
      codes s) :
    s.inFlight.length ≤ 12 ∧
    (BatchFinal
        (fun c => classify (try_download (dl c) (logo_path out_dir c)
          FsState.empty)) s →
      s.pending = [] ∧ s.inFlight = [] ∧
      List.Perm (s.done.map Prod.fst) codes ∧
      (s.done.map Prod.fst).Nodup ∧
      (∀ c, c ∈ s.done.map Prod.fst ↔
        c ∈ collect_codes iata_index records) ∧
      (∀ p ∈ s.done,
        p.2 = classify (try_download (dl p.1) (logo_path out_dir p.1)
          FsState.empty)) ∧
      ∀ p ∈ s.done, p.2 = DlOutcome.saved ∨ p.2 = DlOutcome.skipped ∨
        ∃ m, p.2 = DlOutcome.failed m) := by
  obtain ⟨h1, h2, h3⟩ := batchInv_reachable hreach
  refine ⟨h1, fun hfin => ?_⟩
  obtain ⟨hpd, hfl⟩ := batchFinal_drained hfin
  rw [hpd, hfl] at h2
  simp only [List.nil_append] at h2
  refine ⟨hpd, hfl, h2, h2.nodup_iff.mpr hnd, ?_, h3, ?_⟩
  · intro c
    constructor
    · intro hc
      exact hmem c (h2.mem_iff.mp hc)
    · intro hc
      exact h2.mem_iff.mpr (hmem' c hc)
  · intro p hp
    cases hout : p.2 with
    | saved => exact Or.inl rfl
    | skipped => exact Or.inr (Or.inl rfl)
    | failed m => exact Or.inr (Or.inr ⟨m, rfl⟩)

/-- Witness for C9: the single code `"AA"` (collected from marker value
`"aa"`), resolved as Skipped by a 404 response, through the two-step
schedule start-then-finish. -/
theorem buffer_unordered_bounded_witness :
    (⟨[], [], [("AA", DlOutcome.skipped)]⟩ : BatchState).inFlight.length ≤ 12 ∧
    List.Perm ([("AA", DlOutcome.skipped)].map Prod.fst) ["AA"] ∧
    ∀ c, c ∈ [("AA", DlOutcome.skipped)].map Prod.fst ↔
      c ∈ collect_codes 0 [["aa"]] := by
  have step1 : BatchStep
      (fun c => classify (try_download ((fun _ => ⟨.response 404 "x", true⟩ :
          String → DlEnv) c) (logo_path "airline_bitmaps" c) FsState.empty))
      (initBatch ["AA"]) ⟨[], ["AA"], []⟩ :=
    BatchStep.start "AA" [] [] [] (by simp [concurrency_cap])
  have step2 : BatchStep
      (fun c => classify (try_download ((fun _ => ⟨.response 404 "x", true⟩ :
          String → DlEnv) c) (logo_path "airline_bitmaps" c) FsState.empty))
      ⟨[], ["AA"], []⟩ ⟨[], [], [("AA", DlOutcome.skipped)]⟩ :=
    BatchStep.finish [] [] [] "AA" []
  have hreach : BatchReachable
      (fun c => classify (try_download ((fun _ => ⟨.response 404 "x", true⟩ :
          String → DlEnv) c) (logo_path "airline_bitmaps" c) FsState.empty))
      ["AA"] ⟨[], [], [("AA", DlOutcome.skipped)]⟩ :=
    Relation.ReflTransGen.tail (Relation.ReflTransGen.single step1) step2
  have h := buffer_unordered_bounded (fun _ => ⟨.response 404 "x", true⟩) 0
    [["aa"]] "airline_bitmaps" ["AA"] ⟨[], [], [("AA", DlOutcome.skipped)]⟩
    (by decide) (by decide) (by decide) hreach
  have hfin : BatchFinal
      (fun c => classify (try_download ((fun _ => ⟨.response 404 "x", true⟩ :
          String → DlEnv) c) (logo_path "airline_bitmaps" c) FsState.empty))
      ⟨[], [], [("AA", DlOutcome.skipped)]⟩ :=
    fun s' hstep => absurd (batchStep_not_drained hstep rfl rfl) not_false
  exact ⟨h.1, (h.2 hfin).2.2.1, (h.2 hfin).2.2.2.2.1⟩

end IATAScraper
